import Mathlib

/-!
Shallow embedding of `export_powerbi_noedge.py` (Power BI tabs → screenshots
→ single PDF).  The script is sequential glue: build a URL per report tab,
drive a browser to each, capture a screenshot (element capture with a
fixed-margin crop fallback), and merge the saved PNGs into one PDF whose
pages are sized from the images' pixel dimensions and DPI metadata.

Modelling conventions:
* Pixel data is a row-major `List Nat`; an image carries its size and the
  optional embedded DPI pair from its metadata (PIL `im.info["dpi"]`).
* The browser is an environment: per URL, which canvas selectors become
  visible within their probe timeout (a timeout is modelled as `false`,
  matching the caught `PWTimeout`), the element screenshot each selector
  would produce, and the full-page screenshot.
* The output directory is an association list from file name to image;
  `fsWrite` models saving a file (overwrite), `fsRename` models
  `Path.rename`.
* Python floats are modelled by `ℚ`; machine integers by `Int`/`Nat`.
* The effects whose ordering the spec talks about (directory creation,
  browser open, navigation, the confirmation prompt, browser close) are
  recorded in a trace.
-/

namespace PBI

/-- Static workspace identifier (USER CONFIG). -/
def WORKSPACE_ID : String := "34206745-f731-4cf0-abb3-60f8c6063a17"

/-- Static report identifier (USER CONFIG). -/
def REPORT_ID : String := "9b1ef4dc-67e0-4fb0-b7c0-a60b13d56d9b"

/-- The configured tab (section) IDs, in the order to export. -/
def SECTIONS : List String :=
  [ "aee1ca53a294adcd19d6"
  , "f3068a3490443d692480"
  , "bcef587a2687c468c590"
  , "1d8509acae2a7c233b94"
  , "cf3c2bc02309c11cf0d6"
  , "a295e311cdc72150e15e"
  , "fa92017d1ee22557b834"
  , "7f44c7593fdc0788af2b"
  , "c5b8d2e47f0c7ddcbb53"
  , "5df08783c0b6d7388b5f" ]

/-- `CHROMELESS` flag from the config block. -/
def CHROMELESS : Bool := true

/-- Fixed viewport width. -/
def VIEWPORT_W : Nat := 1920

/-- Fixed viewport height. -/
def VIEWPORT_H : Nat := 1200

/-- Name of the fixed output directory (`OUTPUT_DIR`). -/
def OUTPUT_DIR : String := "powerbi_tab_exports"

/-- Candidate selectors for the report canvas, in probe order. -/
def CANVAS_SELECTORS : List String :=
  [ "div.reportCanvas"
  , "div[aria-label=Report canvas]"
  , "[data-testid=report-view-container]"
  , "div.visual-container-host" ]

/-- `USE_ELEMENT_CAPTURE` flag from the config block. -/
def USE_ELEMENT_CAPTURE : Bool := true

/-- The four fixed crop margins, as (possibly negative) integers, mirroring
the Python dict `CROP_MARGINS = dict(left=140, right=0, top=0, bottom=145)`. -/
structure Margins where
  left : Int
  right : Int
  top : Int
  bottom : Int
deriving DecidableEq, Repr

/-- The configured crop margins. -/
def CROP_MARGINS : Margins := { left := 140, right := 0, top := 0, bottom := 145 }

/-- `tab_url`: build the fully qualified address for one section id. -/
def tab_url (section_id : String) : String :=
  let base := "https://app.powerbi.com/groups/" ++ WORKSPACE_ID ++ "/reports/"
      ++ REPORT_ID ++ "/" ++ section_id
  let qs := "experience=power-bi&clientSideAuth=0"
  let qs := if CHROMELESS then
      qs ++ "&chromeless=1&filterPaneEnabled=false&navContentPaneEnabled=false"
    else qs
  base ++ "?" ++ qs

/-- A decoded image: pixel size, row-major pixel data, and the optional
embedded DPI pair from the file's metadata (`im.info.get("dpi", ...)`). -/
structure Img where
  w : Nat
  h : Nat
  data : List Nat
  dpi : Option (ℚ × ℚ)
deriving DecidableEq

/-- Pixel access with PIL's zero padding outside the image bounds. -/
def pixelAt (im : Img) (x y : Nat) : Nat :=
  if x < im.w ∧ y < im.h then (im.data.getD (y * im.w + x) 0) else 0

/-- The crop box `(left, top, max(left, w - right), max(top, h - bottom))`
computed in `screenshot_clean`, with each margin clamped below at 0. -/
def cropBox (m : Margins) (w h : Nat) : Int × Int × Int × Int :=
  let left := max 0 m.left
  let right := max 0 m.right
  let top := max 0 m.top
  let bottom := max 0 m.bottom
  (left, top, max left ((w : Int) - right), max top ((h : Int) - bottom))

/-- PIL `im.crop(box)`: the sub-rectangle of the image given by the box.
The crop result keeps the source image's metadata (PIL copies `info`). -/
def cropImg (im : Img) (box : Int × Int × Int × Int) : Img :=
  let l := box.1
  let t := box.2.1
  let r := box.2.2.1
  let b := box.2.2.2
  let cw := (r - l).toNat
  let ch := (b - t).toNat
  { w := cw
  , h := ch
  , data := (List.range ch).flatMap
      (fun y => (List.range cw).map (fun x => pixelAt im (l.toNat + x) (t.toNat + y)))
  , dpi := im.dpi }

/-- The output directory contents: an association list from file name to
the image stored in the file. -/
abbrev FS := List (String × Img)

/-- Look up the file stored under a name. -/
def fsLookup : FS → String → Option Img
  | [], _ => none
  | p :: rest, n => if p.1 = n then some p.2 else fsLookup rest n

/-- Remove every entry stored under a name. -/
def fsErase : FS → String → FS
  | [], _ => []
  | p :: rest, n => if p.1 = n then fsErase rest n else p :: fsErase rest n

/-- Save an image under a name, overwriting any previous file of that name. -/
def fsWrite (fs : FS) (n : String) (img : Img) : FS :=
  fsErase fs n ++ [(n, img)]

/-- `Path.rename`: move the file stored under `old` to `new`. -/
def fsRename (fs : FS) (old new : String) : FS :=
  match fsLookup fs old with
  | some img => fsWrite (fsErase fs old) new img
  | none => fs

/-- The state of one loaded report page, as the capture stage observes it:
which selectors become visible within the 2000 ms probe timeout (`false`
models the caught `PWTimeout`), the screenshot of each selector's first
matching element, and the full-page screenshot. -/
structure PageEnv where
  visible : String → Bool
  elemShot : String → Img
  fullShot : Img

/-- The probe loop of `find_report_canvas`: try the selectors in order,
recording each probed selector, and return on the first visible one. -/
def findCanvasTrace (vis : String → Bool) : List String → List String × Option String
  | [] => ([], none)
  | s :: rest =>
    if vis s then ([s], some s)
    else
      let r := findCanvasTrace vis rest
      (s :: r.1, r.2)

/-- `find_report_canvas`: the first selector whose target becomes visible
within its probe timeout, or `none` when all candidates time out. -/
def find_report_canvas (selectors : List String) (vis : String → Bool) : Option String :=
  (findCanvasTrace vis selectors).2

/-- Run configuration: the capture options threaded through the pipeline. -/
structure Config where
  useElementCapture : Bool
  selectors : List String
  margins : Margins

/-- The configuration the script actually runs with. -/
def theConfig : Config :=
  { useElementCapture := USE_ELEMENT_CAPTURE
  , selectors := CANVAS_SELECTORS
  , margins := CROP_MARGINS }

/-- `path.with_suffix(".full.png")` for a `.png` path: replace the `.png`
suffix by `.full.png`. -/
def withFullSuffix (p : String) : String :=
  p.dropRight 4 ++ ".full.png"

/-- Python truthiness of `any(CROP_MARGINS.values())`: true when some
margin is a nonzero integer. -/
def anyMargins (m : Margins) : Bool :=
  m.left ≠ 0 || m.right ≠ 0 || m.top ≠ 0 || m.bottom ≠ 0

/-- The fallback branch of `screenshot_clean`: save the full-page shot to
the `.full.png` temp name, then either save the margin-cropped image under
the target name (when some margin is nonzero) or rename the temp file to
the target name (when all margins are zero). -/
def screenshot_fallback (cfg : Config) (env : PageEnv) (path : String) (fs : FS) : FS :=
  let tmp := withFullSuffix path
  let fs1 := fsWrite fs tmp env.fullShot
  if anyMargins cfg.margins then
    let im := env.fullShot
    fsWrite fs1 path (cropImg im (cropBox cfg.margins im.w im.h))
  else
    fsRename fs1 tmp path

/-- `screenshot_clean`: capture only the report canvas when a selector
matches; otherwise capture the full page and crop the fixed margins. -/
def screenshot_clean (cfg : Config) (env : PageEnv) (path : String) (fs : FS) : FS :=
  if cfg.useElementCapture then
    match find_report_canvas cfg.selectors env.visible with
    | some sel => fsWrite fs path (env.elemShot sel)
    | none => screenshot_fallback cfg env path fs
  else screenshot_fallback cfg env path fs

/-- The DPI fallback constant `dpi_hint = 96` of `merge_pngs_to_pdf`. -/
def dpi_hint : ℚ := 96

/-- The DPI the assembly stage uses for an image:
`im.info.get("dpi", (dpi_hint, dpi_hint))[0] or dpi_hint` — the first
component of the embedded pair when present and nonzero, else 96. -/
def imgDpi (im : Img) : ℚ :=
  match im.dpi with
  | some d => if d.1 = 0 then dpi_hint else d.1
  | none => dpi_hint

/-- One page of the output PDF: its size in points.  The image is drawn at
origin filling the whole page (`drawImage(..., 0, 0, page_w, page_h)`), so
the page is determined by its size and source image. -/
structure PdfPage where
  pageW : ℚ
  pageH : ℚ
deriving DecidableEq

/-- The page built for one image: pixel size times `72 / DPI`. -/
def pageOf (im : Img) : PdfPage :=
  let px_to_pt : ℚ := 72 / imgDpi im
  { pageW := im.w * px_to_pt, pageH := im.h * px_to_pt }

/-- `merge_pngs_to_pdf`: open each listed file and append one page per
image; an unreadable file aborts the whole assembly (`none`). -/
def merge_pngs_to_pdf (fs : FS) : List String → Option (List PdfPage)
  | [] => some []
  | p :: rest =>
    match fsLookup fs p with
    | none => none
    | some im => (merge_pngs_to_pdf fs rest).map (fun pages => pageOf im :: pages)

/-- `f"{i:02d}"`: decimal rendering zero-padded to width 2. -/
def pad2 (i : Nat) : String :=
  if i < 10 then "0" ++ toString i else toString i

/-- The output file name for the view at (1-based) ordinal `i` with
section id `sec`: `OUTPUT_DIR / f"tab_{i:02d}_{sec}.png"`. -/
def imgName (i : Nat) (sec : String) : String :=
  OUTPUT_DIR ++ "/tab_" ++ pad2 i ++ "_" ++ sec ++ ".png"

/-- `enumerate(l, i)`: pair each element with its index starting at `i`. -/
def enum1 (i : Nat) : List String → List (Nat × String)
  | [] => []
  | s :: rest => (i, s) :: enum1 (i + 1) rest

/-- Python `str.lower()`: lowercase every character. -/
def pyLower (s : String) : String :=
  String.mk (s.data.map Char.toLower)

/-- Python `str.strip()`: drop leading and trailing whitespace. -/
def pyStrip (s : String) : String :=
  String.mk (((s.data.dropWhile Char.isWhitespace).reverse.dropWhile
    Char.isWhitespace).reverse)

/-- The observable effects of a run whose ordering the spec describes. -/
inductive Effect where
  | mkdirOutputDir
  | openBrowser
  | goto (url : String)
  | prompt
  | closeBrowser
deriving DecidableEq

/-- A whole-run environment: the operator's response to the confirmation
prompt and, per URL, the loaded page the capture stage observes. -/
structure RunEnv where
  resp : String
  pageAt : String → PageEnv

/-- Everything a run produces: the effect trace, the output directory
contents, the ordered list of saved screenshot paths, and the assembled
document (`none` when no document was produced). -/
structure RunResult where
  trace : List Effect
  fs : FS
  shots : List String
  pdf : Option (List PdfPage)

/-- The capture loop of `main`: for each `(ordinal, section)` pair,
navigate, capture into `tab_<ordinal>_<section>.png`, and append the path
to the shot list. -/
def captureLoop (cfg : Config) (env : RunEnv) : List (Nat × String) → FS → FS × List String
  | [], fs => (fs, [])
  | e :: rest, fs =>
    let path := imgName e.1 e.2
    let fs2 := screenshot_clean cfg (env.pageAt (tab_url e.2)) path fs
    let r := captureLoop cfg env rest fs2
    (r.1, path :: r.2)

/-- `main`: create the output directory, open the browser, navigate to the
first tab, prompt for confirmation; on decline close the browser and stop
with no output; on `y` capture every section in order, close the browser,
and merge the screenshots into the PDF. -/
def main (env : RunEnv) : RunResult :=
  let pre := [Effect.mkdirOutputDir, Effect.openBrowser,
    Effect.goto (tab_url (SECTIONS.headD "")), Effect.prompt]
  if pyLower (pyStrip env.resp) ≠ "y" then
    { trace := pre ++ [Effect.closeBrowser], fs := [], shots := [], pdf := none }
  else
    let r := captureLoop theConfig env (enum1 1 SECTIONS) []
    { trace := pre ++ (enum1 1 SECTIONS).map (fun e => Effect.goto (tab_url e.2))
        ++ [Effect.closeBrowser]
    , fs := r.1
    , shots := r.2
    , pdf := merge_pngs_to_pdf r.1 r.2 }

/-! ### Association-list lemmas about the output directory -/

theorem fsLookup_append (l1 l2 : FS) (n : String) :
    fsLookup (l1 ++ l2) n =
      match fsLookup l1 n with
      | some i => some i
      | none => fsLookup l2 n := by
  induction l1 with
  | nil => simp [fsLookup]
  | cons p rest ih =>
    by_cases hp : p.1 = n
    · simp [fsLookup, hp]
    · simp [fsLookup, hp, ih]

theorem fsLookup_fsErase_self (fs : FS) (n : String) :
    fsLookup (fsErase fs n) n = none := by
  induction fs with
  | nil => rfl
  | cons p rest ih =>
    by_cases hp : p.1 = n
    · simp [fsErase, hp, ih]
    · simp [fsErase, fsLookup, hp, ih]

theorem fsLookup_fsErase_ne (fs : FS) {m n : String} (h : n ≠ m) :
    fsLookup (fsErase fs m) n = fsLookup fs n := by
  have hmn : ¬ m = n := fun he => h he.symm
  induction fs with
  | nil => rfl
  | cons p rest ih =>
    by_cases hp : p.1 = m
    · simp [fsErase, fsLookup, hp, hmn, ih]
    · by_cases hq : p.1 = n
      · simp [fsErase, fsLookup, hp, hq, h]
      · simp [fsErase, fsLookup, hp, hq, ih]

theorem fsLookup_fsWrite_self (fs : FS) (n : String) (img : Img) :
    fsLookup (fsWrite fs n img) n = some img := by
  unfold fsWrite
  rw [fsLookup_append, fsLookup_fsErase_self]
  simp [fsLookup]

theorem fsLookup_fsWrite_ne (fs : FS) {m n : String} (img : Img) (h : n ≠ m) :
    fsLookup (fsWrite fs m img) n = fsLookup fs n := by
  unfold fsWrite
  rw [fsLookup_append, fsLookup_fsErase_ne fs h]
  have hmn : ¬ m = n := fun he => h he.symm
  cases hl : fsLookup fs n with
  | some i => rfl
  | none => simp [fsLookup, hmn]

theorem fsLookup_fsRename_ne (fs : FS) {old new n : String}
    (h1 : n ≠ old) (h2 : n ≠ new) :
    fsLookup (fsRename fs old new) n = fsLookup fs n := by
  unfold fsRename
  cases hl : fsLookup fs old with
  | none => rfl
  | some img =>
    rw [fsLookup_fsWrite_ne _ _ h2, fsLookup_fsErase_ne _ h1]

/-! ### What one capture writes -/

theorem screenshot_fallback_lookup_self (cfg : Config) (env : PageEnv)
    (path : String) (fs : FS) :
    ∃ img, fsLookup (screenshot_fallback cfg env path fs) path = some img := by
  unfold screenshot_fallback
  by_cases hm : anyMargins cfg.margins
  · simp only [hm, if_true]
    exact ⟨_, fsLookup_fsWrite_self _ _ _⟩
  · simp only [hm, if_false, Bool.false_eq_true]
    unfold fsRename
    rw [fsLookup_fsWrite_self]
    exact ⟨_, fsLookup_fsWrite_self _ _ _⟩

theorem screenshot_clean_lookup_self (cfg : Config) (env : PageEnv)
    (path : String) (fs : FS) :
    ∃ img, fsLookup (screenshot_clean cfg env path fs) path = some img := by
  unfold screenshot_clean
  by_cases hu : cfg.useElementCapture
  · simp only [hu, if_true]
    cases find_report_canvas cfg.selectors env.visible with
    | some sel => exact ⟨_, fsLookup_fsWrite_self _ _ _⟩
    | none => exact screenshot_fallback_lookup_self cfg env path fs
  · simp only [hu, if_false, Bool.false_eq_true]
    exact screenshot_fallback_lookup_self cfg env path fs

theorem screenshot_fallback_lookup_other (cfg : Config) (env : PageEnv)
    (path : String) (fs : FS) {n : String}
    (h1 : n ≠ path) (h2 : n ≠ withFullSuffix path) :
    fsLookup (screenshot_fallback cfg env path fs) n = fsLookup fs n := by
  unfold screenshot_fallback
  by_cases hm : anyMargins cfg.margins
  · simp only [hm, if_true]
    rw [fsLookup_fsWrite_ne _ _ h1, fsLookup_fsWrite_ne _ _ h2]
  · simp only [hm, if_false, Bool.false_eq_true]
    rw [fsLookup_fsRename_ne _ h2 h1, fsLookup_fsWrite_ne _ _ h2]

theorem screenshot_clean_lookup_other (cfg : Config) (env : PageEnv)
    (path : String) (fs : FS) {n : String}
    (h1 : n ≠ path) (h2 : n ≠ withFullSuffix path) :
    fsLookup (screenshot_clean cfg env path fs) n = fsLookup fs n := by
  unfold screenshot_clean
  by_cases hu : cfg.useElementCapture
  · simp only [hu, if_true]
    cases find_report_canvas cfg.selectors env.visible with
    | some sel => exact fsLookup_fsWrite_ne _ _ h1
    | none => exact screenshot_fallback_lookup_other cfg env path fs h1 h2
  · simp only [hu, if_false, Bool.false_eq_true]
    exact screenshot_fallback_lookup_other cfg env path fs h1 h2

/-! ### The probe loop, characterised -/

theorem findCanvasTrace_spec (vis : String → Bool) (l : List String) :
    (findCanvasTrace vis l).2 = l.find? vis ∧
    (findCanvasTrace vis l).1 =
      l.takeWhile (fun s => !vis s) ++
        (match l.find? vis with | some s => [s] | none => []) := by
  induction l with
  | nil => exact ⟨rfl, rfl⟩
  | cons s rest ih =>
    cases hv : vis s with
    | true => simp [findCanvasTrace, hv, List.find?, List.takeWhile]
    | false => simp [findCanvasTrace, hv, List.find?, List.takeWhile, ih.1, ih.2]

theorem find_report_canvas_none (vis : String → Bool) (l : List String)
    (h : ∀ s ∈ l, vis s = false) : find_report_canvas l vis = none := by
  unfold find_report_canvas
  rw [(findCanvasTrace_spec vis l).1, List.find?_eq_none]
  intro x hx
  simp [h x hx]

/-! ### Concrete sample environments used by witnesses -/

/-- A tiny concrete 2×2 image with no embedded DPI. -/
def sampleImg : Img := { w := 2, h := 2, data := [1, 2, 3, 4], dpi := none }

/-- A loaded page on which no canvas selector ever becomes visible. -/
def noCanvasPage : PageEnv :=
  { visible := fun _ => false, elemShot := fun _ => sampleImg, fullShot := sampleImg }

/-- A run environment whose operator answers `n` at the prompt. -/
def declineEnv : RunEnv := { resp := "n", pageAt := fun _ => noCanvasPage }

/-! ### Claim theorems -/

/-- C9: for every image size and every margin configuration, including
negative margins or margins exceeding the image dimensions, the crop box
computed in the fallback path is valid: margins are clamped below at 0, the
right edge is at least the left edge, and the bottom edge is at least the
top edge. -/
theorem crop_box_always_valid (w h : Nat) (m : Margins) :
    0 ≤ (cropBox m w h).1 ∧ 0 ≤ (cropBox m w h).2.1 ∧
    (cropBox m w h).1 ≤ (cropBox m w h).2.2.1 ∧
    (cropBox m w h).2.1 ≤ (cropBox m w h).2.2.2 :=
  ⟨le_max_left 0 m.left, le_max_left 0 m.top, le_max_left _ _, le_max_left _ _⟩

/-- C6: a 1920×1200 full-page capture cropped with the configured margins
(left 140, right 0, top 0, bottom 145) has pixel size exactly (1780, 1055);
in general, for nonnegative margins that fit in the image, the cropped size
is (width − left − right, height − top − bottom). -/
theorem crop_size_formula :
    (∀ (im : Img), im.w = 1920 → im.h = 1200 →
      (cropImg im (cropBox CROP_MARGINS im.w im.h)).w = 1780 ∧
      (cropImg im (cropBox CROP_MARGINS im.w im.h)).h = 1055)
  ∧ (∀ (im : Img) (m : Margins),
      0 ≤ m.left → 0 ≤ m.right → 0 ≤ m.top → 0 ≤ m.bottom →
      m.left + m.right ≤ (im.w : Int) → m.top + m.bottom ≤ (im.h : Int) →
      ((cropImg im (cropBox m im.w im.h)).w : Int) = (im.w : Int) - m.left - m.right ∧
      ((cropImg im (cropBox m im.w im.h)).h : Int) = (im.h : Int) - m.top - m.bottom) := by
  have gen : ∀ (im : Img) (m : Margins),
      0 ≤ m.left → 0 ≤ m.right → 0 ≤ m.top → 0 ≤ m.bottom →
      m.left + m.right ≤ (im.w : Int) → m.top + m.bottom ≤ (im.h : Int) →
      ((cropImg im (cropBox m im.w im.h)).w : Int) = (im.w : Int) - m.left - m.right ∧
      ((cropImg im (cropBox m im.w im.h)).h : Int) = (im.h : Int) - m.top - m.bottom := by
    intro im m hl hr ht hb hwlr hhtb
    have h1 : m.left ≤ (im.w : Int) - m.right := by linarith
    have h2 : m.top ≤ (im.h : Int) - m.bottom := by linarith
    have hbox : cropBox m im.w im.h =
        (m.left, m.top, (im.w : Int) - m.right, (im.h : Int) - m.bottom) := by
      simp [cropBox, max_eq_right hl, max_eq_right hr, max_eq_right ht,
        max_eq_right hb, max_eq_right h1, max_eq_right h2]
    rw [hbox]
    constructor
    · show ((((im.w : Int) - m.right) - m.left).toNat : Int) = (im.w : Int) - m.left - m.right
      rw [Int.toNat_of_nonneg (by linarith)]
      ring
    · show ((((im.h : Int) - m.bottom) - m.top).toNat : Int) = (im.h : Int) - m.top - m.bottom
      rw [Int.toNat_of_nonneg (by linarith)]
      ring
  refine ⟨?_, gen⟩
  intro im hw hh
  rw [hw, hh]
  have hg := gen im CROP_MARGINS (by decide) (by decide) (by decide) (by decide)
    (by rw [hw]; decide) (by rw [hh]; decide)
  rw [hw, hh] at hg
  constructor
  · have h1 : ((cropImg im (cropBox CROP_MARGINS 1920 1200)).w : Int) = 1780 := by
      rw [hg.1]; norm_num [CROP_MARGINS]
    exact_mod_cast h1
  · have h2 : ((cropImg im (cropBox CROP_MARGINS 1920 1200)).h : Int) = 1055 := by
      rw [hg.2]; norm_num [CROP_MARGINS]
    exact_mod_cast h2

/-- C7: with all four crop margins zero, the fallback path performs no
crop — the file saved under the view's name is exactly (byte for byte) the
uncropped full-page capture. -/
theorem zero_margins_no_crop (env : PageEnv) (path : String) (fs : FS) :
    fsLookup
      (screenshot_fallback
        { useElementCapture := USE_ELEMENT_CAPTURE
        , selectors := CANVAS_SELECTORS
        , margins := { left := 0, right := 0, top := 0, bottom := 0 } }
        env path fs) path
      = some env.fullShot := by
  unfold screenshot_fallback
  have hm : anyMargins { left := 0, right := 0, top := 0, bottom := 0 } = false := rfl
  simp only [hm, Bool.false_eq_true, if_false]
  unfold fsRename
  rw [fsLookup_fsWrite_self]
  exact fsLookup_fsWrite_self _ _ _

/-- C8: the locator candidates are probed strictly in declared order, each
with its own probe timeout (a timeout is `visible = false`); the probed
prefix is exactly the candidates that timed out followed by the first
visible one, the result is the first visible candidate, and when a
candidate matches it is the one whose element screenshot is saved. -/
theorem canvas_first_match_wins (vis : String → Bool) :
    (find_report_canvas CANVAS_SELECTORS vis = CANVAS_SELECTORS.find? vis ∧
     (findCanvasTrace vis CANVAS_SELECTORS).1 =
       CANVAS_SELECTORS.takeWhile (fun s => !vis s) ++
         (match CANVAS_SELECTORS.find? vis with | some s => [s] | none => []))
  ∧ ∀ (env : PageEnv) (path : String) (fs : FS) (sel : String),
      find_report_canvas CANVAS_SELECTORS env.visible = some sel →
      fsLookup (screenshot_clean theConfig env path fs) path = some (env.elemShot sel) := by
  refine ⟨findCanvasTrace_spec vis CANVAS_SELECTORS, ?_⟩
  intro env path fs sel hfind
  unfold screenshot_clean
  have hu : theConfig.useElementCapture = true := rfl
  simp only [hu, if_true]
  have : find_report_canvas theConfig.selectors env.visible = some sel := hfind
  rw [this]
  exact fsLookup_fsWrite_self _ _ _

/-- C3: when no locator candidate becomes visible within its probe
timeout, the capture stage raises no error: it falls back to the full-page
capture with the fixed-margin crop and still saves the one named output
image for the view. -/
theorem fallback_on_no_canvas (env : PageEnv) (path : String) (fs : FS)
    (h : ∀ s ∈ CANVAS_SELECTORS, env.visible s = false) :
    fsLookup (screenshot_clean theConfig env path fs) path =
      some (cropImg env.fullShot
        (cropBox CROP_MARGINS env.fullShot.w env.fullShot.h)) := by
  unfold screenshot_clean
  have hu : theConfig.useElementCapture = true := rfl
  simp only [hu, if_true]
  rw [show find_report_canvas theConfig.selectors env.visible = none from
    find_report_canvas_none env.visible CANVAS_SELECTORS h]
  unfold screenshot_fallback
  have hm : anyMargins theConfig.margins = true := rfl
  simp only [hm, if_true]
  exact fsLookup_fsWrite_self _ _ _

/-- C3 witness: on a page where no selector becomes visible, the capture
saves the cropped full-page image under the view's name. -/
theorem fallback_on_no_canvas_witness :
    fsLookup (screenshot_clean theConfig noCanvasPage (imgName 1 "a") []) (imgName 1 "a") =
      some (cropImg noCanvasPage.fullShot
        (cropBox CROP_MARGINS noCanvasPage.fullShot.w noCanvasPage.fullShot.h)) :=
  fallback_on_no_canvas noCanvasPage (imgName 1 "a") [] (by intro s _; rfl)

/-- C6 witness: the configured 1920×1200 viewport capture, cropped. -/
theorem crop_size_formula_witness :
    (cropImg { w := 1920, h := 1200, data := [], dpi := none }
      (cropBox CROP_MARGINS 1920 1200)).w = 1780 ∧
    (cropImg { w := 1920, h := 1200, data := [], dpi := none }
      (cropBox CROP_MARGINS 1920 1200)).h = 1055 :=
  crop_size_formula.1 { w := 1920, h := 1200, data := [], dpi := none } rfl rfl

/-- A loaded page on which every canvas selector is immediately visible. -/
def firstVisiblePage : PageEnv :=
  { visible := fun _ => true, elemShot := fun _ => sampleImg, fullShot := sampleImg }

/-- C8 witness: when every selector is visible, the first declared one,
`div.reportCanvas`, is matched and its element screenshot is the file
saved for the view. -/
theorem canvas_first_match_wins_witness :
    fsLookup (screenshot_clean theConfig firstVisiblePage (imgName 1 "a") [])
        (imgName 1 "a")
      = some (firstVisiblePage.elemShot "div.reportCanvas") :=
  (canvas_first_match_wins firstVisiblePage.visible).2 firstVisiblePage
    (imgName 1 "a") [] "div.reportCanvas" rfl

/-- C4 counterexample: for the first configured view, on the fallback path
with the configured (nonzero) margins, two files for the view remain in
the output directory after the capture completes: the temporary full-page
capture `tab_01_<id>.full.png` and the named output `tab_01_<id>.png`. -/
theorem capture_leaves_temp_file :
    (screenshot_clean theConfig noCanvasPage (imgName 1 "aee1ca53a294adcd19d6") []).map
        Prod.fst
      = [withFullSuffix (imgName 1 "aee1ca53a294adcd19d6"),
         imgName 1 "aee1ca53a294adcd19d6"]
    ∧ withFullSuffix (imgName 1 "aee1ca53a294adcd19d6") ≠
        imgName 1 "aee1ca53a294adcd19d6" := by
  constructor
  · rfl
  · decide

/-- C4 amended: starting from an empty output directory, the element-capture
path leaves exactly the one named output file for the view, while the
fallback full-page-plus-crop path (taken with the configured nonzero
margins) leaves the temporary full-page capture `….full.png` alongside the
named output — two files for that view. -/
theorem capture_files_per_view (env : PageEnv) (path : String)
    (hne : withFullSuffix path ≠ path) :
    (∀ sel, find_report_canvas CANVAS_SELECTORS env.visible = some sel →
      (screenshot_clean theConfig env path []).map Prod.fst = [path]) ∧
    (find_report_canvas CANVAS_SELECTORS env.visible = none →
      (screenshot_clean theConfig env path []).map Prod.fst
        = [withFullSuffix path, path]) := by
  constructor
  · intro sel hs
    unfold screenshot_clean
    simp only [show theConfig.useElementCapture = true from rfl, if_true]
    rw [show find_report_canvas theConfig.selectors env.visible = some sel from hs]
    rfl
  · intro hs
    unfold screenshot_clean
    simp only [show theConfig.useElementCapture = true from rfl, if_true]
    rw [show find_report_canvas theConfig.selectors env.visible = none from hs]
    unfold screenshot_fallback
    simp only [show anyMargins theConfig.margins = true from rfl, if_true]
    unfold fsWrite
    simp [fsErase, hne]

/-- C4 amended witness: the fallback branch at the first view's path. -/
theorem capture_files_per_view_witness :
    (screenshot_clean theConfig noCanvasPage (imgName 1 "aee1ca53a294adcd19d6") []).map
        Prod.fst
      = [withFullSuffix (imgName 1 "aee1ca53a294adcd19d6"),
         imgName 1 "aee1ca53a294adcd19d6"] :=
  (capture_files_per_view noCanvasPage (imgName 1 "aee1ca53a294adcd19d6")
    (by decide)).2
    (find_report_canvas_none noCanvasPage.visible CANVAS_SELECTORS
      (by intro s _; rfl))

/-- Unfolding `main` on the declining branch. -/
theorem main_decline (env : RunEnv) (h : pyLower (pyStrip env.resp) ≠ "y") :
    main env =
      { trace := [Effect.mkdirOutputDir, Effect.openBrowser,
          Effect.goto (tab_url (SECTIONS.headD "")), Effect.prompt,
          Effect.closeBrowser]
      , fs := [], shots := [], pdf := none } := by
  simp only [main]
  rw [if_pos h]
  rfl

/-- Unfolding `main` on the accepting branch. -/
theorem main_accept (env : RunEnv) (h : pyLower (pyStrip env.resp) = "y") :
    main env =
      { trace := [Effect.mkdirOutputDir, Effect.openBrowser,
          Effect.goto (tab_url (SECTIONS.headD "")), Effect.prompt]
          ++ (enum1 1 SECTIONS).map (fun e => Effect.goto (tab_url e.2))
          ++ [Effect.closeBrowser]
      , fs := (captureLoop theConfig env (enum1 1 SECTIONS) []).1
      , shots := (captureLoop theConfig env (enum1 1 SECTIONS) []).2
      , pdf := merge_pngs_to_pdf (captureLoop theConfig env (enum1 1 SECTIONS) []).1
          (captureLoop theConfig env (enum1 1 SECTIONS) []).2 } := by
  simp only [main]
  rw [if_neg (by simp [h])]

/-- C5: when the operator's (stripped, lowercased) response to the
confirmation prompt is anything other than `y`, the run closes the browser
and returns cleanly with zero image files and no output document. -/
theorem decline_produces_no_output (env : RunEnv)
    (h : pyLower (pyStrip env.resp) ≠ "y") :
    (main env).fs = [] ∧ (main env).shots = [] ∧ (main env).pdf = none ∧
      Effect.closeBrowser ∈ (main env).trace := by
  rw [main_decline env h]
  refine ⟨rfl, rfl, rfl, ?_⟩
  simp

/-- C5 witness: answering `n` yields no files and no document. -/
theorem decline_produces_no_output_witness :
    (main declineEnv).fs = [] ∧ (main declineEnv).shots = [] ∧
      (main declineEnv).pdf = none ∧
      Effect.closeBrowser ∈ (main declineEnv).trace :=
  decline_produces_no_output declineEnv (by decide)

/-- C10: every run's very first effect is creating the output directory,
before the browser is opened and before the confirmation prompt; in
particular the directory is created even when the operator declines and no
image file is produced. -/
theorem mkdir_before_browser_and_prompt (env : RunEnv) :
    (∃ rest, (main env).trace = Effect.mkdirOutputDir :: Effect.openBrowser ::
        Effect.goto (tab_url (SECTIONS.headD "")) :: Effect.prompt :: rest) ∧
    (pyLower (pyStrip env.resp) ≠ "y" →
      Effect.mkdirOutputDir ∈ (main env).trace ∧ (main env).fs = []) := by
  constructor
  · by_cases h : pyLower (pyStrip env.resp) = "y"
    · rw [main_accept env h]
      exact ⟨_, rfl⟩
    · rw [main_decline env h]
      exact ⟨_, rfl⟩
  · intro h
    rw [main_decline env h]
    exact ⟨by simp, rfl⟩

/-- C10 witness: a declining run still creates the output directory first. -/
theorem mkdir_before_browser_and_prompt_witness :
    (∃ rest, (main declineEnv).trace = Effect.mkdirOutputDir :: Effect.openBrowser ::
        Effect.goto (tab_url (SECTIONS.headD "")) :: Effect.prompt :: rest) ∧
    (Effect.mkdirOutputDir ∈ (main declineEnv).trace ∧ (main declineEnv).fs = []) :=
  ⟨(mkdir_before_browser_and_prompt declineEnv).1,
   (mkdir_before_browser_and_prompt declineEnv).2 (by decide)⟩

/-! ### Enumeration and loop lemmas for the main run -/

theorem enum1_length (i : Nat) (l : List String) : (enum1 i l).length = l.length := by
  induction l generalizing i with
  | nil => rfl
  | cons s rest ih => simp [enum1, ih]

theorem enum1_get? (i k : Nat) (l : List String) :
    (enum1 i l).get? k = (l.get? k).map (fun s => (i + k, s)) := by
  induction l generalizing i k with
  | nil => simp [enum1]
  | cons s rest ih =>
    cases k with
    | zero => simp [enum1]
    | succ k =>
      simp only [enum1, List.get?_cons_succ, ih (i + 1) k]
      cases l' : rest.get? k with
      | none => rfl
      | some t => simp [Nat.add_assoc, Nat.add_comm 1 k]

theorem captureLoop_shots (cfg : Config) (env : RunEnv) :
    ∀ (l : List (Nat × String)) (fs : FS),
      (captureLoop cfg env l fs).2 = l.map (fun e => imgName e.1 e.2) := by
  intro l
  induction l with
  | nil => intro fs; rfl
  | cons e rest ih => intro fs; simp [captureLoop, ih]

theorem captureLoop_preserves (cfg : Config) (env : RunEnv) :
    ∀ (l : List (Nat × String)) (fs : FS) (n : String),
      (∀ e ∈ l, n ≠ imgName e.1 e.2 ∧ n ≠ withFullSuffix (imgName e.1 e.2)) →
      fsLookup (captureLoop cfg env l fs).1 n = fsLookup fs n := by
  intro l
  induction l with
  | nil => intro fs n _; rfl
  | cons e0 rest ih =>
    intro fs n h
    have hrest := ih (screenshot_clean cfg (env.pageAt (tab_url e0.2))
      (imgName e0.1 e0.2) fs) n (fun e he => h e (List.mem_cons_of_mem e0 he))
    have h0 := h e0 (List.mem_cons_self e0 rest)
    calc fsLookup (captureLoop cfg env (e0 :: rest) fs).1 n
        = fsLookup (screenshot_clean cfg (env.pageAt (tab_url e0.2))
            (imgName e0.1 e0.2) fs) n := hrest
      _ = fsLookup fs n := screenshot_clean_lookup_other _ _ _ _ h0.1 h0.2

/-- No earlier view's output name is clobbered by a later view's output or
temp name. -/
def Fresh (l : List (Nat × String)) : Prop :=
  l.Pairwise (fun a b => imgName a.1 a.2 ≠ imgName b.1 b.2 ∧
    imgName a.1 a.2 ≠ withFullSuffix (imgName b.1 b.2))

theorem captureLoop_lookup (cfg : Config) (env : RunEnv) :
    ∀ (l : List (Nat × String)) (fs : FS), Fresh l → ∀ e ∈ l,
      ∃ img, fsLookup (captureLoop cfg env l fs).1 (imgName e.1 e.2) = some img := by
  intro l
  induction l with
  | nil => intro fs _ e he; cases he
  | cons e0 rest ih =>
    intro fs hfresh e he
    rcases List.mem_cons.mp he with rfl | hmem
    · obtain ⟨img, himg⟩ := screenshot_clean_lookup_self cfg
        (env.pageAt (tab_url e.2)) (imgName e.1 e.2) fs
      refine ⟨img, ?_⟩
      have hpres := captureLoop_preserves cfg env rest
        (screenshot_clean cfg (env.pageAt (tab_url e.2)) (imgName e.1 e.2) fs)
        (imgName e.1 e.2) (fun b hb => (List.pairwise_cons.mp hfresh).1 b hb)
      calc fsLookup (captureLoop cfg env (e :: rest) fs).1 (imgName e.1 e.2)
          = fsLookup (screenshot_clean cfg (env.pageAt (tab_url e.2))
              (imgName e.1 e.2) fs) (imgName e.1 e.2) := hpres
        _ = some img := himg
    · exact ih _ (List.pairwise_cons.mp hfresh).2 e hmem

/-- The ten configured views have pairwise fresh output and temp names. -/
theorem fresh_sections : Fresh (enum1 1 SECTIONS) := by
  unfold Fresh
  decide

/-- What a successful assembly run produces, page by page. -/
theorem merge_spec (fs : FS) :
    ∀ (paths : List String),
      (∀ p ∈ paths, ∃ im, fsLookup fs p = some im) →
      ∃ pages, merge_pngs_to_pdf fs paths = some pages ∧
        pages.length = paths.length ∧
        ∀ (k : Nat) (p : String), paths.get? k = some p →
          ∃ im, fsLookup fs p = some im ∧ pages.get? k = some (pageOf im) := by
  intro paths
  induction paths with
  | nil =>
    intro _
    exact ⟨[], rfl, rfl, fun k p hp => by simp at hp⟩
  | cons p rest ih =>
    intro h
    obtain ⟨im, him⟩ := h p (List.mem_cons_self p rest)
    obtain ⟨pages', hm, hlen, hidx⟩ := ih (fun q hq => h q (List.mem_cons_of_mem p hq))
    refine ⟨pageOf im :: pages', ?_, by simp [hlen], ?_⟩
    · simp only [merge_pngs_to_pdf]
      rw [him, hm]
      rfl
    · intro k q hq
      cases k with
      | zero =>
        obtain rfl : p = q := by simpa using hq
        exact ⟨im, him, rfl⟩
      | succ k => exact hidx k q (by simpa using hq)

/-- The DPI choice in the spec's words: the image's embedded density
metadata when present and nonzero, and the fallback constant 96 otherwise. -/
def specDpi (im : Img) : ℚ :=
  match im.dpi with
  | some d => if d.1 ≠ 0 then d.1 else 96
  | none => 96

theorem imgDpi_eq_specDpi (im : Img) : imgDpi im = specDpi im := by
  unfold imgDpi specDpi dpi_hint
  cases im.dpi with
  | none => rfl
  | some d =>
    by_cases hd : d.1 = 0
    · simp [hd]
    · simp [hd]

/-- C2: every page of the assembled document has width and height in
points equal to its image's pixel width and height times `72 / DPI`, where
DPI is the embedded density metadata when present and nonzero and 96
otherwise; in particular an image with embedded DPI 96 yields a page of
exactly (W × 0.75, H × 0.75) points. -/
theorem merge_page_size_formula :
    (∀ (fs : FS) (paths : List String) (pages : List PdfPage),
      merge_pngs_to_pdf fs paths = some pages →
      ∀ (k : Nat) (p : String), paths.get? k = some p →
        ∃ im, fsLookup fs p = some im ∧
          pages.get? k = some
            { pageW := im.w * (72 / specDpi im)
            , pageH := im.h * (72 / specDpi im) })
  ∧ ∀ (im : Img) (d2 : ℚ), im.dpi = some (96, d2) →
      (pageOf im).pageW = im.w * (3 / 4 : ℚ) ∧
      (pageOf im).pageH = im.h * (3 / 4 : ℚ) := by
  constructor
  · intro fs paths
    induction paths with
    | nil =>
      intro pages _ k p hp
      simp at hp
    | cons q rest ih =>
      intro pages hm k p hp
      simp only [merge_pngs_to_pdf] at hm
      cases hl : fsLookup fs q with
      | none => rw [hl] at hm; cases hm
      | some im =>
        rw [hl] at hm
        cases hrest : merge_pngs_to_pdf fs rest with
        | none => rw [hrest] at hm; cases hm
        | some pages' =>
          rw [hrest] at hm
          obtain rfl : pageOf im :: pages' = pages := by simpa using hm
          cases k with
          | zero =>
            obtain rfl : q = p := by simpa using hp
            refine ⟨im, hl, ?_⟩
            have : pageOf im =
                { pageW := im.w * (72 / specDpi im)
                , pageH := im.h * (72 / specDpi im) } := by
              unfold pageOf
              rw [imgDpi_eq_specDpi]
            rw [List.get?_cons_zero, this]
          | succ k => exact ih pages' hrest k p (by simpa using hp)
  · intro im d2 hd
    have hdpi : imgDpi im = 96 := by
      unfold imgDpi
      rw [hd]
      norm_num
    constructor
    · show im.w * (72 / imgDpi im) = im.w * (3 / 4 : ℚ)
      rw [hdpi]
      norm_num
    · show im.h * (72 / imgDpi im) = im.h * (3 / 4 : ℚ)
      rw [hdpi]
      norm_num

/-- A concrete image carrying embedded DPI (96, 96). -/
def dpi96Img : Img := { w := 4, h := 8, data := [], dpi := some (96, 96) }

/-- C2 witness: a one-image document built from an embedded-DPI-96 image
of pixel size 4×8 gets a page sized by the 72/DPI formula, and the
DPI-96 page is exactly 0.75 times the pixel size. -/
theorem merge_page_size_formula_witness :
    (∃ im, fsLookup [("a.png", dpi96Img)] "a.png" = some im ∧
      ([pageOf dpi96Img] : List PdfPage).get? 0 = some
        { pageW := im.w * (72 / specDpi im)
        , pageH := im.h * (72 / specDpi im) }) ∧
    ((pageOf dpi96Img).pageW = dpi96Img.w * (3 / 4 : ℚ) ∧
     (pageOf dpi96Img).pageH = dpi96Img.h * (3 / 4 : ℚ)) :=
  ⟨merge_page_size_formula.1 [("a.png", dpi96Img)] ["a.png"] [pageOf dpi96Img]
      rfl 0 "a.png" rfl,
   merge_page_size_formula.2 dpi96Img 96 rfl⟩

/-- A run environment whose operator answers `y` at the prompt. -/
def acceptEnv : RunEnv := { resp := "y", pageAt := fun _ => noCanvasPage }

/-- C1: a confirmed, completed run saves one image file per configured
view with ordinals matching the input order, and the assembled document
has one page per saved image, in the same order. -/
theorem main_output_counts_and_order (env : RunEnv)
    (h : pyLower (pyStrip env.resp) = "y") :
    (main env).shots.length = SECTIONS.length ∧
    ∃ pages, (main env).pdf = some pages ∧ pages.length = SECTIONS.length ∧
      ∀ (k : Nat) (sec : String), SECTIONS.get? k = some sec →
        (main env).shots.get? k = some (imgName (k + 1) sec) ∧
        ∃ im, fsLookup (main env).fs (imgName (k + 1) sec) = some im ∧
          pages.get? k = some (pageOf im) := by
  have hacc := main_accept env h
  have hshots : (main env).shots =
      (captureLoop theConfig env (enum1 1 SECTIONS) []).2 := by rw [hacc]
  have hfs : (main env).fs =
      (captureLoop theConfig env (enum1 1 SECTIONS) []).1 := by rw [hacc]
  have hpdf : (main env).pdf =
      merge_pngs_to_pdf (captureLoop theConfig env (enum1 1 SECTIONS) []).1
        (captureLoop theConfig env (enum1 1 SECTIONS) []).2 := by rw [hacc]
  have hsh2 : (captureLoop theConfig env (enum1 1 SECTIONS) []).2 =
      (enum1 1 SECTIONS).map (fun e => imgName e.1 e.2) :=
    captureLoop_shots _ _ _ _
  have hlook : ∀ p ∈ (captureLoop theConfig env (enum1 1 SECTIONS) []).2,
      ∃ im, fsLookup (captureLoop theConfig env (enum1 1 SECTIONS) []).1 p = some im := by
    intro p hp
    rw [hsh2] at hp
    obtain ⟨e, he, rfl⟩ := List.mem_map.mp hp
    exact captureLoop_lookup theConfig env _ [] fresh_sections e he
  obtain ⟨pages, hmerge, hplen, hpidx⟩ := merge_spec _ _ hlook
  have hgetshots : ∀ (k : Nat) (sec : String), SECTIONS.get? k = some sec →
      (captureLoop theConfig env (enum1 1 SECTIONS) []).2.get? k =
        some (imgName (k + 1) sec) := by
    intro k sec hsec
    rw [hsh2, List.get?_map, enum1_get? 1 k SECTIONS, hsec]
    simp [Nat.add_comm 1 k]
  refine ⟨?_, pages, ?_, ?_, ?_⟩
  · rw [hshots, hsh2, List.length_map, enum1_length]
  · rw [hpdf]; exact hmerge
  · rw [hplen, hsh2, List.length_map, enum1_length]
  · intro k sec hsec
    have hpath := hgetshots k sec hsec
    obtain ⟨im, him, hpg⟩ := hpidx k (imgName (k + 1) sec) hpath
    refine ⟨?_, im, ?_, hpg⟩
    · rw [hshots]; exact hpath
    · rw [hfs]; exact him

/-- C1 witness: a confirmed run in a concrete environment where no canvas
selector ever appears still yields ten files, ten pages, in order. -/
theorem main_output_counts_and_order_witness :
    (main acceptEnv).shots.length = SECTIONS.length ∧
    ∃ pages, (main acceptEnv).pdf = some pages ∧ pages.length = SECTIONS.length ∧
      ∀ (k : Nat) (sec : String), SECTIONS.get? k = some sec →
        (main acceptEnv).shots.get? k = some (imgName (k + 1) sec) ∧
        ∃ im, fsLookup (main acceptEnv).fs (imgName (k + 1) sec) = some im ∧
          pages.get? k = some (pageOf im) :=
  main_output_counts_and_order acceptEnv (by decide)

end PBI
